import Mathlib

/-!
Shallow embedding of `src/app.py` (a Streamlit stock-forecast pipeline).

The app fetches a raw OHLC price table for a ticker, normalizes it to a
(date, close) series, fits a Prophet model, predicts over the history plus a
future horizon, renders a matplotlib figure into a PNG buffer, and (in `main`)
shows a summary line, a chart (line or candlestick), and two download buttons.

Dates are modelled as natural numbers (days); prices as rationals; a missing
cell (NaN) as `none`.  Streamlit UI calls are modelled as an ordered event
trace; completion of the internal pipeline stages is recorded with `stepDone`
markers so that ordering claims about "output before the steps finish" can be
stated.  The network fetch result (`yf.download`) is an input to the model.
-/

namespace StockForecast

/-- A table cell: a numeric value, or missing (NaN). -/
abbrev Cell := Option ℚ

/-- One row of the fetched table: the date index plus the cells,
    positionally aligned with the table's column list. -/
structure TableRow where
  date : Nat
  cells : List Cell
deriving DecidableEq, Repr

/-- The raw OHLC(+Volume) table returned by `yf.download`. -/
structure RawPriceTable where
  columns : List String
  rows : List TableRow
deriving DecidableEq, Repr

/-- `df_raw.empty` of pandas. -/
def RawPriceTable.isEmptyTable (t : RawPriceTable) : Bool := t.rows.isEmpty

/-- `c in df_raw.columns`. -/
def RawPriceTable.hasCol (t : RawPriceTable) (c : String) : Bool :=
  t.columns.contains c

/-- The values of column `c`, one per row (missing column gives `[]`). -/
def RawPriceTable.colVals (t : RawPriceTable) (c : String) : List Cell :=
  match t.columns.findIdx? (· == c) with
  | none => []
  | some i => t.rows.map fun r => r.cells.getD i none

/-- One point of the normalized series: `ds` (date), `y` (closing price). -/
structure SeriesPoint where
  ds : Nat
  y : ℚ
deriving DecidableEq, Repr

/-- Lines 38-40 of the source: `df_raw.reset_index()[["Date","Close"]]`,
    rename to (ds, y), `dropna(subset=["y"])`.  Rows whose Close cell is
    missing are dropped. -/
def normalizeSeries (t : RawPriceTable) : List SeriesPoint :=
  match t.columns.findIdx? (· == "Close") with
  | none => []
  | some i => t.rows.filterMap fun r => (r.cells.getD i none).map fun y => ⟨r.date, y⟩

/-! ### The Prophet adapter

Modelled from the spec: the Prophet library itself is external to the
repository.  Per the spec's Forecast Model Adapter contract, any model
producing a point estimate plus an uncertainty band per date satisfies the
contract (a seasonal-naive baseline is explicitly allowed); fitting fails
(ModelFitError) when the series has fewer than two points, and
`make_future_dataframe(periods=H)` with daily frequency yields the history
dates followed by the `H` consecutive calendar days after the last date. -/

/-- A fitted model: it retains the history it was fitted on. -/
structure ProphetModel where
  history : List SeriesPoint
deriving DecidableEq, Repr

/-- Modelled from the spec: `Prophet.fit` raises (ModelFitError) when the
    cleaned dataframe has fewer than 2 rows, and otherwise fits. -/
def prophetFit (df : List SeriesPoint) : Except String ProphetModel :=
  if df.length < 2 then
    Except.error "Dataframe has less than 2 non-NaN rows."
  else
    Except.ok ⟨df⟩

/-- The last (maximal) date of a series. -/
def lastDate (df : List SeriesPoint) : Nat :=
  (df.map (·.ds)).foldl max 0

/-- Modelled from the spec: `make_future_dataframe(periods)` with daily
    frequency and `include_history=True` (the default used by the source)
    returns the history dates followed by the `periods` consecutive days
    after the last history date. -/
def make_future_dataframe (m : ProphetModel) (periods : Nat) : List Nat :=
  m.history.map (·.ds) ++ (List.range periods).map fun i => lastDate m.history + i + 1

/-- One row of Prophet's forecast frame: ds, yhat, yhat_lower, yhat_upper. -/
structure ForecastRow where
  ds : Nat
  yhat : ℚ
  yhat_lower : ℚ
  yhat_upper : ℚ
deriving DecidableEq, Repr

/-- The point estimate of the modelled forecaster: the last observed price
    (the seasonal-naive baseline the spec names as an acceptable model). -/
def pointEstimate (m : ProphetModel) : ℚ :=
  ((m.history.map (·.y)).getLast?).getD 0

/-- The half-width of the modelled uncertainty band: the largest absolute
    deviation of the history from the point estimate (never negative). -/
def bandWidth (m : ProphetModel) : ℚ :=
  (m.history.map fun p => |p.y - pointEstimate m|).foldl max 0

/-- Modelled from the spec: `model.predict(future)` returns one row per date
    of `future`, each with a point estimate and lower/upper bounds around it. -/
def ProphetModel.predictDF (m : ProphetModel) (dates : List Nat) : List ForecastRow :=
  dates.map fun d =>
    ⟨d, pointEstimate m, pointEstimate m - bandWidth m, pointEstimate m + bandWidth m⟩

/-- Lines 42-46 of the source composed: fit, make the future frame, predict.
    The `Except` carries the exception that the source's `try` would catch. -/
def forecastStep (df : List SeriesPoint) (forecast_days : Nat) :
    Except String (List ForecastRow) :=
  (prophetFit df).map fun m => m.predictDF (make_future_dataframe m forecast_days)

/-! ### Rendering -/

/-- The matplotlib figure of lines 49-66: actual line, predicted dashed line,
    shaded confidence band, title, axis labels, legend, grid. -/
structure Figure where
  title : String
  xlabel : String
  ylabel : String
  actual : List SeriesPoint
  predicted : List (Nat × ℚ)
  confBand : List (Nat × ℚ × ℚ)
  legend : Bool
  grid : Bool
deriving DecidableEq, Repr

def renderFigure (ticker : String) (df : List SeriesPoint)
    (forecast : List ForecastRow) : Figure :=
  { title := s!"{ticker} Stock Price Forecast"
    xlabel := "Date"
    ylabel := "Price (USD)"
    actual := df
    predicted := forecast.map fun r => (r.ds, r.yhat)
    confBand := forecast.map fun r => (r.ds, r.yhat_lower, r.yhat_upper)
    legend := true
    grid := true }

/-- The in-memory PNG buffer of lines 68-70: the saved figure, with the read
    position rewound to 0 by `buf.seek(0)`. -/
structure PngBuffer where
  fig : Figure
  pos : Nat
deriving DecidableEq, Repr

def savefigPng (f : Figure) : PngBuffer := ⟨f, 0⟩

/-- The plotly candlestick chart of lines 94-109. -/
structure CandleSpec where
  x : List Nat
  openVals : List Cell
  highVals : List Cell
  lowVals : List Cell
  closeVals : List Cell
  title : String
  xaxisTitle : String
  yaxisTitle : String
deriving DecidableEq, Repr

def makeCandle (ticker : String) (t : RawPriceTable) : CandleSpec :=
  { x := t.rows.map (·.date)
    openVals := t.colVals "Open"
    highVals := t.colVals "High"
    lowVals := t.colVals "Low"
    closeVals := t.colVals "Close"
    title := s!"{ticker} Candlestick Chart"
    xaxisTitle := "Date"
    yaxisTitle := "Price (USD)" }

/-- Line 93 of the source: `{"Open","High","Low","Close"}.issubset(df_raw.columns)`. -/
def candleOk (t : RawPriceTable) : Bool :=
  t.hasCol "Open" && t.hasCol "High" && t.hasCol "Low" && t.hasCol "Close"

/-! ### Decimal rendering (used by the CSV export and the summary line) -/

/-- The decimal digit characters of `n`, most significant first ("0" for 0). -/
def natDecimal (n : Nat) : List Char :=
  if n = 0 then ['0'] else ((Nat.digits 10 n).map Nat.digitChar).reverse

def natStr (n : Nat) : String := String.mk (natDecimal n)

/-- How a date index renders in text output. -/
def dateStr (n : Nat) : String := natStr n

/-- Zero-padded two-digit rendering of `n < 100`. -/
def pad2 (n : Nat) : String := if n < 10 then "0" ++ natStr n else natStr n

/-- Python's `f"{x:.2f}"`, modelled on rationals: round to cents (ties round
    up here, where CPython rounds the underlying binary float half-to-even)
    and print with exactly two decimals. -/
def fmt2 (q : ℚ) : String :=
  let c : Int := round (q * 100)
  (if c < 0 then "-" else "") ++ natStr (c.natAbs / 100) ++ "." ++ pad2 (c.natAbs % 100)

/-! ### CSV export (line 124: `df_raw.to_csv(index=True).encode("utf-8")`) -/

/-- Join chunks with a separator character. -/
def joinWith (sep : Char) : List (List Char) → List Char
  | [] => []
  | [x] => x
  | x :: y :: t => x ++ sep :: joinWith sep (y :: t)

/-- Split on a separator character (inverse of `joinWith` on good input). -/
def splitOnChar (sep : Char) : List Char → List (List Char)
  | [] => [[]]
  | c :: cs =>
    if c = sep then [] :: splitOnChar sep cs
    else
      match splitOnChar sep cs with
      | [] => [[c]]
      | a :: as => (c :: a) :: as

/-- How a numeric cell renders in the CSV (missing = empty field; a rational
    as sign, numerator, '/', denominator — separator-free, like pandas'
    decimal rendering of a float). -/
def cellChars (c : Cell) : List Char :=
  match c with
  | none => []
  | some q =>
    (if q.num < 0 then ['-'] else []) ++ natDecimal q.num.natAbs ++ '/' :: natDecimal q.den

/-- The header line: the index name `Date`, then the column names. -/
def headerLine (t : RawPriceTable) : List Char :=
  joinWith ',' ("Date".data :: t.columns.map (·.data))

/-- One CSV data line: the date index, then the row's cells. -/
def rowLine (r : TableRow) : List Char :=
  joinWith ',' (natDecimal r.date :: r.cells.map cellChars)

/-- `df_raw.to_csv(index=True)`: header line, one line per row, comma
    separated, newline terminated. -/
def to_csv (t : RawPriceTable) : String :=
  String.mk (joinWith '\n' (headerLine t :: t.rows.map rowLine) ++ ['\n'])

/-- Decode a decimal numeral field back to a number. -/
def charDigit (c : Char) : Option Nat :=
  if '0' ≤ c ∧ c ≤ '9' then some (c.toNat - '0'.toNat) else none

/-- Decode every character of a numeral field as a digit. -/
def decodeDigits : List Char → Option (List Nat)
  | [] => some []
  | c :: cs =>
    match charDigit c, decodeDigits cs with
    | some d, some ds => some (d :: ds)
    | _, _ => none

def fromDecimal (cs : List Char) : Option Nat :=
  if cs = [] then none
  else (decodeDigits cs).map fun ds => Nat.ofDigits 10 ds.reverse

/-- Parse a CSV back, as `pd.read_csv` would: split into lines (blank lines
    skipped, as by pandas' default), drop the header, and for each data line
    read the first field as the date index and keep the remaining fields. -/
def parseCsv (s : String) : List (Option Nat × List (List Char)) :=
  match (splitOnChar '\n' s.data).filter (· ≠ []) with
  | [] => []
  | _header :: dataLines =>
    dataLines.map fun line =>
      match splitOnChar ',' line with
      | [] => (none, [])
      | d :: fields => (fromDecimal d, fields)

/-! ### The UI event trace -/

/-- The internal pipeline stages, in source order. -/
inductive Step
  | fetch
  | normalizeData
  | fitModel
  | render
deriving DecidableEq, Repr

/-- A download payload. -/
inductive Payload
  | png (b : PngBuffer)
  | text (s : String)
deriving DecidableEq, Repr

/-- One Streamlit call, in order of execution.  `stepDone` is not a UI call:
    it marks the completion of an internal stage, so that claims about output
    shown before the stages finish can be stated over the same trace. -/
inductive Event
  | info (msg : String)
  | error (msg : String)
  | success (msg : String)
  | warning (msg : String)
  | pyplot (fig : Figure)
  | plotly (spec : CandleSpec)
  | download (label fileName mime : String) (data : Payload)
  | stepDone (s : Step)
deriving DecidableEq, Repr

/-- Is this event something the user sees (any UI call)? -/
def Event.isOutput : Event → Bool
  | .stepDone _ => false
  | _ => true

/-- Is this event a result output (summary, chart, warning, download), as
    opposed to a progress/error message or an internal marker? -/
def Event.isResultOutput : Event → Bool
  | .success _ => true
  | .warning _ => true
  | .pyplot _ => true
  | .plotly _ => true
  | .download _ _ _ _ => true
  | _ => false

def Event.isErrorMsg : Event → Bool
  | .error _ => true
  | _ => false

def Event.isDownload : Event → Bool
  | .download _ _ _ _ => true
  | _ => false

def Event.isWarning : Event → Bool
  | .warning _ => true
  | _ => false

/-! ### The pipeline function (lines 27-76) -/

/-- `forecast_stock_price(ticker, forecast_days)`.  The fetched table is an
    input (the network call's response); the returned trace lists the UI
    calls and stage completions in order, and the quadruple mirrors the
    source's `return df_raw, forecast, fig, buf` /
    `return None, None, None, None`.  The source's `try/except` is modelled
    by the fit error being converted into the generic error message. -/
def forecast_stock_price (ticker : String) (forecast_days : Nat)
    (df_raw : RawPriceTable) :
    List Event ×
      (Option RawPriceTable × Option (List ForecastRow) × Option Figure × Option PngBuffer) :=
  let ev0 : List Event := [.info s!"📥 Downloading data for {ticker}..."]
  -- yf.download returns df_raw
  let ev1 := ev0 ++ [.stepDone .fetch]
  if df_raw.isEmptyTable || !df_raw.hasCol "Close" then
    (ev1 ++ [.error s!"No data found for {ticker}."], (none, none, none, none))
  else
    let df := normalizeSeries df_raw
    let ev2 := ev1 ++ [.stepDone .normalizeData]
    match forecastStep df forecast_days with
    | .error e =>
      (ev2 ++ [.error s!"An error occurred: {e}"], (none, none, none, none))
    | .ok forecast =>
      let ev3 := ev2 ++ [.stepDone .fitModel]
      let fig := renderFigure ticker df forecast
      let buf := savefigPng fig
      let ev4 := ev3 ++ [.stepDone .render]
      (ev4, (some df_raw, some forecast, some fig, some buf))

/-! ### The main block (lines 79-127) -/

inductive ChartType
  | line
  | candlestick
deriving DecidableEq, Repr

/-- `.upper()` of the ticker text input. -/
def toUpperStr (s : String) : String := String.mk (s.data.map Char.toUpper)

/-- The summary line of lines 84-88, built from `forecast.iloc[-1]`. -/
def summaryMsg (forecast : List ForecastRow) : String :=
  let last_day := forecast.getLastD ⟨0, 0, 0, 0⟩
  let d := dateStr last_day.ds
  let y := fmt2 last_day.yhat
  let lo := fmt2 last_day.yhat_lower
  let hi := fmt2 last_day.yhat_upper
  s!"📅 Forecast for {d}: **${y}** (Range: ${lo} ~ ${hi})"

/-- The run triggered by the `Run Forecast` button: the full event trace of
    one user action.  The source checks only `df_raw is not None` before
    using the other three results; the embedding matches the whole quadruple,
    which agrees with the source by the all-or-none shape of the pipeline's
    return (proved below as the C9 theorem). -/
def mainRun (tickerInput : String) (forecast_days : Nat) (chart_type : ChartType)
    (fetched : RawPriceTable) : List Event :=
  let ticker := toUpperStr tickerInput
  if ticker = "" then []
  else
    match forecast_stock_price ticker forecast_days fetched with
    | (ev, (some df_raw, some forecast, some fig, some buf)) =>
      ev ++ [.success (summaryMsg forecast)]
        ++ (match chart_type with
            | .line => [.pyplot fig]
            | .candlestick =>
              if candleOk df_raw then
                [.plotly (makeCandle ticker df_raw)]
              else
                [.warning "Candlestick chart could not be generated due to missing data."])
        ++ [.download "📥 Download Forecast Image (PNG)"
              s!"{ticker}_stock_forecast.png" "image/png" (.png buf),
            .download "📄 Download Historical Data (CSV)"
              s!"{ticker}_historical_data.csv" "text/csv" (.text (to_csv df_raw))]
    | (ev, _) => ev

/-- Concrete two-row table with a Close column (both prices present). -/
def tblTwoRows : RawPriceTable := ⟨["Close"], [⟨0, [some 100]⟩, ⟨1, [some 100]⟩]⟩

/-- Concrete empty fetch result. -/
def tblEmpty : RawPriceTable := ⟨["Open", "High", "Low", "Close", "Adj Close", "Volume"], []⟩

/-- Concrete non-empty table whose Close cells are all missing. -/
def tblAllMissing : RawPriceTable := ⟨["Close"], [⟨0, [none]⟩]⟩

/-- Concrete non-empty table lacking the Close column. -/
def tblNoClose : RawPriceTable :=
  ⟨["Open", "High", "Low"], [⟨0, [some 1, some 2, some 3]⟩]⟩

/-- Concrete two-row table with Open/Low/Close but no High column. -/
def tblNoHigh : RawPriceTable :=
  ⟨["Open", "Low", "Close"],
   [⟨0, [some 1, some 1, some 100]⟩, ⟨1, [some 1, some 1, some 100]⟩]⟩

/-- The forecast produced for the concrete two-row table at horizon 30. -/
def fcTwoRows : List ForecastRow :=
  (forecastStep (normalizeSeries tblTwoRows) 30).toOption.getD []

/-- The literal reading of the claim: within one run's trace, no UI output
    appears before the final stage (render) has completed. -/
def noOutputBeforeAllSteps (ev : List Event) : Bool :=
  (ev.takeWhile fun e => !(e == Event.stepDone Step.render)).all fun e => !e.isOutput

/-- Every result output (summary, chart, warning, download) in the trace is
    preceded by the completion of the render stage. -/
def resultAfterRender (ev : List Event) : Prop :=
  ∀ n e, ev.get? n = some e → e.isResultOutput = true →
    ∃ m, m < n ∧ ev.get? m = some (Event.stepDone Step.render)

/-- C9: the pipeline's four return values are all `none` or all `some`, so the
    caller's single check of the raw table suffices for the other three. -/
theorem C9_return_all_or_none (ticker : String) (H : Nat) (t : RawPriceTable) :
    (((forecast_stock_price ticker H t).2.1 = none ∧
      (forecast_stock_price ticker H t).2.2.1 = none ∧
      (forecast_stock_price ticker H t).2.2.2.1 = none ∧
      (forecast_stock_price ticker H t).2.2.2.2 = none) ∨
     ((forecast_stock_price ticker H t).2.1.isSome = true ∧
      (forecast_stock_price ticker H t).2.2.1.isSome = true ∧
      (forecast_stock_price ticker H t).2.2.2.1.isSome = true ∧
      (forecast_stock_price ticker H t).2.2.2.2.isSome = true)) := by
  unfold forecast_stock_price
  dsimp only
  split
  · simp
  · split <;> simp

/-- C10: an empty ticker input short-circuits the run: no pipeline stage
    executes and the event trace is empty. -/
theorem C10_empty_ticker_no_run (H : Nat) (ct : ChartType) (t : RawPriceTable) :
    mainRun "" H ct t = [] := rfl

/-- C4: when the fetch returns an empty table, the run reports the
    user-visible no-data message and produces no summary, chart, warning or
    download. -/
theorem C4_empty_fetch_no_data (ti : String) (H : Nat) (ct : ChartType)
    (t : RawPriceTable) (hticker : toUpperStr ti ≠ "") (hempty : t.rows = []) :
    Event.error s!"No data found for {toUpperStr ti}." ∈ mainRun ti H ct t ∧
    (mainRun ti H ct t).all (fun e => !e.isResultOutput) = true := by
  have hm : mainRun ti H ct t =
      [.info s!"📥 Downloading data for {toUpperStr ti}...", .stepDone .fetch,
       .error s!"No data found for {toUpperStr ti}."] := by
    unfold mainRun forecast_stock_price
    rw [if_neg hticker]
    simp [RawPriceTable.isEmptyTable, hempty]
  rw [hm]
  refine ⟨by simp, ?_⟩
  simp [Event.isResultOutput]

/-- C4 witness at a concrete empty fetch result. -/
theorem C4_empty_fetch_no_data_witness :
    Event.error "No data found for AAPL." ∈ mainRun "AAPL" 100 ChartType.line tblEmpty ∧
    (mainRun "AAPL" 100 ChartType.line tblEmpty).all (fun e => !e.isResultOutput) = true := by
  have h := C4_empty_fetch_no_data "AAPL" 100 ChartType.line tblEmpty
    (by decide) (by decide)
  simpa using h

/-- C3: a non-empty fetched table with a Close column whose normalized series
    is empty makes the pipeline abort like a fetch failure: all four returns
    are `None`, a user-visible error message is emitted, and no result output
    (summary, chart, download) is produced. -/
theorem C3_empty_series_aborts (ti : String) (H : Nat) (t : RawPriceTable)
    (hne : t.rows ≠ []) (hcl : t.hasCol "Close" = true)
    (hz : normalizeSeries t = []) :
    (forecast_stock_price ti H t).2 = (none, none, none, none) ∧
    (∃ m, Event.error m ∈ (forecast_stock_price ti H t).1) ∧
    ((forecast_stock_price ti H t).1).all (fun e => !e.isResultOutput) = true := by
  have hc : (t.isEmptyTable || !t.hasCol "Close") = false := by
    simp [RawPriceTable.isEmptyTable, hne, hcl]
  have hf : forecastStep (normalizeSeries t) H =
      Except.error "Dataframe has less than 2 non-NaN rows." := by
    rw [hz]; rfl
  unfold forecast_stock_price
  simp only [hc, hf, Bool.false_eq_true, if_false]
  refine ⟨trivial, ⟨"An error occurred: Dataframe has less than 2 non-NaN rows.", ?_⟩,
    by simp [Event.isResultOutput]⟩
  simp only [List.mem_append, List.mem_singleton]
  right
  rfl

/-- C3 witness: the concrete all-missing one-row table. -/
theorem C3_empty_series_aborts_witness :
    (forecast_stock_price "AAPL" 100 tblAllMissing).2 = (none, none, none, none) ∧
    (∃ m, Event.error m ∈ (forecast_stock_price "AAPL" 100 tblAllMissing).1) ∧
    ((forecast_stock_price "AAPL" 100 tblAllMissing).1).all (fun e => !e.isResultOutput) = true :=
  C3_empty_series_aborts "AAPL" 100 tblAllMissing (by decide) (by decide) (by decide)

/-- `foldl max` never goes below its starting value. -/
theorem le_foldl_max (l : List ℚ) : ∀ a : ℚ, a ≤ l.foldl max a := by
  induction l with
  | nil => intro a; simp
  | cons x xs ih =>
    intro a
    have hstep : (x :: xs).foldl max a = xs.foldl max (max a x) := rfl
    rw [hstep]
    exact le_trans (le_max_left a x) (ih (max a x))

/-- The modelled uncertainty band has nonnegative half-width. -/
theorem bandWidth_nonneg (m : ProphetModel) : 0 ≤ bandWidth m :=
  le_foldl_max _ 0

/-- C2: every row of a forecast produced by the forecast step satisfies
    yhat_lower ≤ yhat ≤ yhat_upper. -/
theorem C2_bounds_ordered (df : List SeriesPoint) (H : Nat) (fc : List ForecastRow)
    (h : forecastStep df H = Except.ok fc) :
    ∀ r ∈ fc, r.yhat_lower ≤ r.yhat ∧ r.yhat ≤ r.yhat_upper := by
  unfold forecastStep prophetFit at h
  by_cases h2 : df.length < 2
  · simp [h2, Except.map] at h
  · simp only [h2, if_false, Except.map] at h
    rw [Except.ok.injEq] at h
    intro r hr
    rw [← h] at hr
    unfold ProphetModel.predictDF at hr
    obtain ⟨d, _, rfl⟩ := List.mem_map.1 hr
    have hb := bandWidth_nonneg (⟨df⟩ : ProphetModel)
    refine ⟨?_, ?_⟩ <;> dsimp only <;> linarith

/-- The default-valued last element of a non-empty list is a member. -/
theorem getLastD_mem {α : Type} (l : List α) (d : α) (h : l ≠ []) :
    l.getLastD d ∈ l := by
  rw [List.getLastD_eq_getLast?, List.getLast?_eq_getLast l h]
  exact List.getLast_mem h

/-- C2 witness: the bounds hold at a concrete row of a concrete forecast. -/
theorem C2_bounds_ordered_witness :
    (fcTwoRows.getLastD ⟨0, 0, 0, 0⟩).yhat_lower ≤ (fcTwoRows.getLastD ⟨0, 0, 0, 0⟩).yhat ∧
    (fcTwoRows.getLastD ⟨0, 0, 0, 0⟩).yhat ≤ (fcTwoRows.getLastD ⟨0, 0, 0, 0⟩).yhat_upper :=
  C2_bounds_ordered (normalizeSeries tblTwoRows) 30 fcTwoRows rfl
    (fcTwoRows.getLastD ⟨0, 0, 0, 0⟩) (getLastD_mem fcTwoRows ⟨0, 0, 0, 0⟩ (by decide))

/-- C1: for a series of length ≥ 2 and a horizon in the UI bounds, the
    forecast step succeeds, its dates cover every historical date, and its
    final date is exactly `H` days after the series' last date. -/
theorem C1_forecast_range (df : List SeriesPoint) (H : Nat)
    (h2 : 2 ≤ df.length) (hH1 : 30 ≤ H) (hH2 : H ≤ 365) :
    ∃ fc, forecastStep df H = Except.ok fc ∧
      (∀ p ∈ df, p.ds ∈ fc.map (·.ds)) ∧
      (fc.map (·.ds)).getLast? = some (lastDate df + H) := by
  have hfit : prophetFit df = Except.ok ⟨df⟩ := by
    unfold prophetFit
    rw [if_neg (by omega)]
  refine ⟨(ProphetModel.mk df).predictDF (make_future_dataframe ⟨df⟩ H), ?_, ?_, ?_⟩
  · unfold forecastStep
    rw [hfit]
    rfl
  · intro p hp
    have hds :
        ((ProphetModel.mk df).predictDF (make_future_dataframe ⟨df⟩ H)).map (·.ds) =
          make_future_dataframe ⟨df⟩ H := by
      unfold ProphetModel.predictDF
      rw [List.map_map]
      exact List.map_id _
    rw [hds]
    unfold make_future_dataframe
    exact List.mem_append_left _ (List.mem_map_of_mem _ hp)
  · have hds :
        ((ProphetModel.mk df).predictDF (make_future_dataframe ⟨df⟩ H)).map (·.ds) =
          make_future_dataframe ⟨df⟩ H := by
      unfold ProphetModel.predictDF
      rw [List.map_map]
      exact List.map_id _
    rw [hds]
    unfold make_future_dataframe
    obtain ⟨k, rfl⟩ : ∃ k, H = k + 1 := ⟨H - 1, by omega⟩
    rw [List.getLast?_append, List.range_succ, List.map_append]
    simp
    omega

/-- C1 witness at the concrete two-row series and horizon 30. -/
theorem C1_forecast_range_witness :
    ∃ fc, forecastStep (normalizeSeries tblTwoRows) 30 = Except.ok fc ∧
      (∀ p ∈ normalizeSeries tblTwoRows, p.ds ∈ fc.map (·.ds)) ∧
      (fc.map (·.ds)).getLast? = some (lastDate (normalizeSeries tblTwoRows) + 30) :=
  C1_forecast_range (normalizeSeries tblTwoRows) 30 (by decide) (by decide) (by decide)

/-! ### Branch-level equations for the pipeline function -/

/-- The no-data branch of the pipeline (lines 34-36). -/
theorem pipeline_nodata_eq (ti : String) (H : Nat) (t : RawPriceTable)
    (h : (t.isEmptyTable || !t.hasCol "Close") = true) :
    forecast_stock_price ti H t =
      ([.info s!"📥 Downloading data for {ti}...", .stepDone .fetch,
        .error s!"No data found for {ti}."], (none, none, none, none)) := by
  unfold forecast_stock_price
  rw [if_pos (by simpa using h)]
  rfl

/-- The model-fit-failure branch of the pipeline (the `except` of line 74). -/
theorem pipeline_fitfail_eq (ti : String) (H : Nat) (t : RawPriceTable)
    (h1 : t.isEmptyTable = false) (h2 : t.hasCol "Close" = true)
    (e : String) (hf : forecastStep (normalizeSeries t) H = Except.error e) :
    forecast_stock_price ti H t =
      ([.info s!"📥 Downloading data for {ti}...", .stepDone .fetch,
        .stepDone .normalizeData, .error s!"An error occurred: {e}"],
       (none, none, none, none)) := by
  unfold forecast_stock_price
  rw [if_neg (by simp [h1, h2])]
  simp only [hf]
  rfl

/-- The success branch of the pipeline (lines 38-72). -/
theorem pipeline_success_eq (ti : String) (H : Nat) (t : RawPriceTable)
    (h1 : t.isEmptyTable = false) (h2 : t.hasCol "Close" = true)
    (fc : List ForecastRow) (hf : forecastStep (normalizeSeries t) H = Except.ok fc) :
    forecast_stock_price ti H t =
      ([.info s!"📥 Downloading data for {ti}...", .stepDone .fetch,
        .stepDone .normalizeData, .stepDone .fitModel, .stepDone .render],
       (some t, some fc, some (renderFigure ti (normalizeSeries t) fc),
        some (savefigPng (renderFigure ti (normalizeSeries t) fc)))) := by
  unfold forecast_stock_price
  rw [if_neg (by simp [h1, h2])]
  simp only [hf]
  rfl

/-! ### mainRun branch equations -/

/-- The run trace when the fetch comes back empty (or without Close). -/
theorem mainRun_nodata_eq (ti : String) (H : Nat) (ct : ChartType) (t : RawPriceTable)
    (h0 : toUpperStr ti ≠ "") (h : (t.isEmptyTable || !t.hasCol "Close") = true) :
    mainRun ti H ct t =
      [.info s!"📥 Downloading data for {toUpperStr ti}...", .stepDone .fetch,
       .error s!"No data found for {toUpperStr ti}."] := by
  unfold mainRun
  rw [if_neg h0, pipeline_nodata_eq (toUpperStr ti) H t h]

/-- The run trace when the model fit fails. -/
theorem mainRun_fitfail_eq (ti : String) (H : Nat) (ct : ChartType) (t : RawPriceTable)
    (h0 : toUpperStr ti ≠ "") (h1 : t.isEmptyTable = false) (h2 : t.hasCol "Close" = true)
    (e : String) (hf : forecastStep (normalizeSeries t) H = Except.error e) :
    mainRun ti H ct t =
      [.info s!"📥 Downloading data for {toUpperStr ti}...", .stepDone .fetch,
       .stepDone .normalizeData, .error s!"An error occurred: {e}"] := by
  unfold mainRun
  rw [if_neg h0, pipeline_fitfail_eq (toUpperStr ti) H t h1 h2 e hf]

/-- The run trace of a successful pipeline run. -/
theorem mainRun_success_eq (ti : String) (H : Nat) (ct : ChartType) (t : RawPriceTable)
    (h0 : toUpperStr ti ≠ "") (h1 : t.isEmptyTable = false) (h2 : t.hasCol "Close" = true)
    (fc : List ForecastRow) (hf : forecastStep (normalizeSeries t) H = Except.ok fc) :
    mainRun ti H ct t =
      [.info s!"📥 Downloading data for {toUpperStr ti}...", .stepDone .fetch,
       .stepDone .normalizeData, .stepDone .fitModel, .stepDone .render]
      ++ [.success (summaryMsg fc)]
      ++ (match ct with
          | .line => [.pyplot (renderFigure (toUpperStr ti) (normalizeSeries t) fc)]
          | .candlestick =>
            if candleOk t then [.plotly (makeCandle (toUpperStr ti) t)]
            else [.warning "Candlestick chart could not be generated due to missing data."])
      ++ [.download "📥 Download Forecast Image (PNG)"
            s!"{toUpperStr ti}_stock_forecast.png" "image/png"
            (.png (savefigPng (renderFigure (toUpperStr ti) (normalizeSeries t) fc))),
          .download "📄 Download Historical Data (CSV)"
            s!"{toUpperStr ti}_historical_data.csv" "text/csv" (.text (to_csv t))] := by
  unfold mainRun
  rw [if_neg h0, pipeline_success_eq (toUpperStr ti) H t h1 h2 fc hf]

/-! ### C5: output ordering relative to stage completion -/

theorem resultAfterRender_of_none (ev : List Event)
    (h : ∀ e ∈ ev, e.isResultOutput = false) : resultAfterRender ev := by
  intro n e hn he
  have := h e (List.get?_mem hn)
  rw [he] at this
  cases this

theorem resultAfterRender_append (p rest : List Event)
    (hp : ∀ e ∈ p, e.isResultOutput = false)
    (hr : Event.stepDone Step.render ∈ p) :
    resultAfterRender (p ++ rest) := by
  obtain ⟨m, hm⟩ := List.mem_iff_get?.1 hr
  have hmlt : m < p.length := by
    by_contra hge
    rw [List.get?_eq_none.2 (by omega)] at hm
    cases hm
  intro n e hn he
  have hnp : p.length ≤ n := by
    by_contra hlt
    push_neg at hlt
    rw [List.get?_append hlt] at hn
    have := hp e (List.get?_mem hn)
    rw [he] at this
    cases this
  refine ⟨m, by omega, ?_⟩
  rw [List.get?_append hmlt]
  exact hm

/-- C5 counterexample: on a concrete successful run, output (the progress
    info message) is shown before the stages have completed, so the claim's
    statement is false at this input. -/
theorem C5_counterexample_info_first :
    noOutputBeforeAllSteps (mainRun "AAPL" 100 ChartType.line tblTwoRows) = false := by
  decide

/-- C5 amended: every result output (summary, chart, warning, download
    button) appears only after all four stages (fetch, normalize, fit,
    render) have completed; the progress info message and error messages are
    the only outputs that can precede completion. -/
theorem C5_amended_results_after_steps (ti : String) (H : Nat) (ct : ChartType)
    (t : RawPriceTable) : resultAfterRender (mainRun ti H ct t) := by
  by_cases h0 : toUpperStr ti = ""
  · have hmt : mainRun ti H ct t = [] := by
      unfold mainRun
      rw [if_pos h0]
    rw [hmt]
    exact resultAfterRender_of_none _ (by intro e he; cases he)
  · by_cases hC : (t.isEmptyTable || !t.hasCol "Close") = true
    · rw [mainRun_nodata_eq ti H ct t h0 hC]
      refine resultAfterRender_of_none _ ?_
      intro e he
      simp only [List.mem_cons, List.not_mem_nil, or_false] at he
      rcases he with rfl | rfl | rfl <;> rfl
    · rw [Bool.or_eq_true, Bool.not_eq_true'] at hC
      push_neg at hC
      obtain ⟨h1, h2⟩ : t.isEmptyTable = false ∧ t.hasCol "Close" = true := by
        constructor
        · cases hv : t.isEmptyTable
          · rfl
          · exact absurd hv hC.1
        · cases hv : t.hasCol "Close"
          · exact absurd hv hC.2
          · rfl
      rcases hfs : forecastStep (normalizeSeries t) H with e | fc
      · rw [mainRun_fitfail_eq ti H ct t h0 h1 h2 e hfs]
        refine resultAfterRender_of_none _ ?_
        intro e' he'
        simp only [List.mem_cons, List.not_mem_nil, or_false] at he'
        rcases he' with rfl | rfl | rfl | rfl <;> rfl
      · rw [mainRun_success_eq ti H ct t h0 h1 h2 fc hfs]
        rw [List.append_assoc, List.append_assoc]
        refine resultAfterRender_append _ _ ?_ ?_
        · intro e he
          simp only [List.mem_cons, List.not_mem_nil, or_false] at he
          rcases he with rfl | rfl | rfl | rfl | rfl <;> rfl
        · simp

/-! ### C6: candlestick with missing columns -/

/-- C6 counterexample: a fetched table lacking one of the OHLC columns
    (Close), with a candlestick chart requested, produces no warning and no
    downloads — the run aborts with an error instead, because the missing
    Close column is already treated as no data. -/
theorem C6_counterexample_no_close :
    candleOk tblNoClose = false ∧
    (mainRun "AAPL" 100 ChartType.candlestick tblNoClose).all
      (fun e => !(e.isWarning || e.isDownload)) = true ∧
    (mainRun "AAPL" 100 ChartType.candlestick tblNoClose).any
      (fun e => e.isErrorMsg) = true := by
  decide

/-- C6 amended: for every fetched table that passes the no-data check
    (non-empty, Close present) and fits (≥ 2 normalized rows), requesting a
    candlestick chart when one of Open/High/Low is missing shows the warning
    instead of a chart, and the pipeline continues: the summary and both
    download buttons are still produced and no error is raised. -/
theorem C6_amended_candle_warning (ti : String) (H : Nat) (t : RawPriceTable)
    (h0 : toUpperStr ti ≠ "") (h1 : t.isEmptyTable = false)
    (h2 : t.hasCol "Close" = true) (hfit : 2 ≤ (normalizeSeries t).length)
    (hck : candleOk t = false) :
    Event.warning "Candlestick chart could not be generated due to missing data."
      ∈ mainRun ti H ChartType.candlestick t ∧
    (∃ m, Event.success m ∈ mainRun ti H ChartType.candlestick t) ∧
    (∃ d, Event.download "📥 Download Forecast Image (PNG)"
        s!"{toUpperStr ti}_stock_forecast.png" "image/png" d
        ∈ mainRun ti H ChartType.candlestick t) ∧
    (∃ d, Event.download "📄 Download Historical Data (CSV)"
        s!"{toUpperStr ti}_historical_data.csv" "text/csv" d
        ∈ mainRun ti H ChartType.candlestick t) ∧
    (mainRun ti H ChartType.candlestick t).all (fun e => !e.isErrorMsg) = true := by
  have hf : forecastStep (normalizeSeries t) H =
      Except.ok ((ProphetModel.mk (normalizeSeries t)).predictDF
        (make_future_dataframe ⟨normalizeSeries t⟩ H)) := by
    unfold forecastStep prophetFit
    rw [if_neg (by omega)]
    rfl
  rw [mainRun_success_eq ti H ChartType.candlestick t h0 h1 h2 _ hf]
  simp only [hck, Bool.false_eq_true, if_false]
  generalize (ProphetModel.mk (normalizeSeries t)).predictDF
      (make_future_dataframe ⟨normalizeSeries t⟩ H) = fcX
  refine ⟨by simp, ⟨summaryMsg fcX, by simp⟩,
    ⟨Payload.png (savefigPng (renderFigure (toUpperStr ti) (normalizeSeries t) fcX)), by simp⟩,
    ⟨Payload.text (to_csv t), by simp⟩, by simp [Event.isErrorMsg]⟩

/-- C6 witness: the concrete table missing only the High column. -/
theorem C6_amended_candle_warning_witness :
    Event.warning "Candlestick chart could not be generated due to missing data."
      ∈ mainRun "AAPL" 100 ChartType.candlestick tblNoHigh ∧
    (∃ m, Event.success m ∈ mainRun "AAPL" 100 ChartType.candlestick tblNoHigh) ∧
    (∃ d, Event.download "📥 Download Forecast Image (PNG)"
        (toString "" ++ toString (toUpperStr "AAPL") ++ toString "_stock_forecast.png")
        "image/png" d
        ∈ mainRun "AAPL" 100 ChartType.candlestick tblNoHigh) ∧
    (∃ d, Event.download "📄 Download Historical Data (CSV)"
        (toString "" ++ toString (toUpperStr "AAPL") ++ toString "_historical_data.csv")
        "text/csv" d
        ∈ mainRun "AAPL" 100 ChartType.candlestick tblNoHigh) ∧
    (mainRun "AAPL" 100 ChartType.candlestick tblNoHigh).all
      (fun e => !e.isErrorMsg) = true :=
  C6_amended_candle_warning "AAPL" 100 tblNoHigh (by decide) (by decide) (by decide)
    (by decide) (by decide)

/-! ### C8: the summary line -/

/-- C8: on every successful run, the trace contains the success summary line
    built from the last row of the forecast: its date, predicted value and
    lower/upper bounds, each money amount rendered with two decimals. -/
theorem C8_summary_is_last_row (ti : String) (H : Nat) (ct : ChartType)
    (t : RawPriceTable) (h0 : toUpperStr ti ≠ "") (h1 : t.isEmptyTable = false)
    (h2 : t.hasCol "Close" = true) (hfit : 2 ≤ (normalizeSeries t).length) :
    ∃ fc, forecastStep (normalizeSeries t) H = Except.ok fc ∧
      Event.success ("📅 Forecast for " ++ dateStr (fc.getLastD ⟨0, 0, 0, 0⟩).ds
          ++ ": **$" ++ fmt2 (fc.getLastD ⟨0, 0, 0, 0⟩).yhat
          ++ "** (Range: $" ++ fmt2 (fc.getLastD ⟨0, 0, 0, 0⟩).yhat_lower
          ++ " ~ $" ++ fmt2 (fc.getLastD ⟨0, 0, 0, 0⟩).yhat_upper ++ ")")
        ∈ mainRun ti H ct t := by
  have hf : forecastStep (normalizeSeries t) H =
      Except.ok ((ProphetModel.mk (normalizeSeries t)).predictDF
        (make_future_dataframe ⟨normalizeSeries t⟩ H)) := by
    unfold forecastStep prophetFit
    rw [if_neg (by omega)]
    rfl
  refine ⟨_, hf, ?_⟩
  rw [mainRun_success_eq ti H ct t h0 h1 h2 _ hf]
  generalize (ProphetModel.mk (normalizeSeries t)).predictDF
      (make_future_dataframe ⟨normalizeSeries t⟩ H) = fcX
  have hmsg : summaryMsg fcX =
      "📅 Forecast for " ++ dateStr (fcX.getLastD ⟨0, 0, 0, 0⟩).ds
        ++ ": **$" ++ fmt2 (fcX.getLastD ⟨0, 0, 0, 0⟩).yhat
        ++ "** (Range: $" ++ fmt2 (fcX.getLastD ⟨0, 0, 0, 0⟩).yhat_lower
        ++ " ~ $" ++ fmt2 (fcX.getLastD ⟨0, 0, 0, 0⟩).yhat_upper ++ ")" := by
    unfold summaryMsg
    simp [String.append_assoc, String.append_empty, toString]
  rw [← hmsg]
  simp

/-- C8 witness at the concrete two-row table, horizon 30, line chart. -/
theorem C8_summary_is_last_row_witness :
    ∃ fc, forecastStep (normalizeSeries tblTwoRows) 30 = Except.ok fc ∧
      Event.success ("📅 Forecast for " ++ dateStr (fc.getLastD ⟨0, 0, 0, 0⟩).ds
          ++ ": **$" ++ fmt2 (fc.getLastD ⟨0, 0, 0, 0⟩).yhat
          ++ "** (Range: $" ++ fmt2 (fc.getLastD ⟨0, 0, 0, 0⟩).yhat_lower
          ++ " ~ $" ++ fmt2 (fc.getLastD ⟨0, 0, 0, 0⟩).yhat_upper ++ ")")
        ∈ mainRun "AAPL" 30 ChartType.line tblTwoRows :=
  C8_summary_is_last_row "AAPL" 30 ChartType.line tblTwoRows
    (by decide) (by decide) (by decide) (by decide)

/-! ### C7: CSV round trip -/

theorem splitOnChar_cons (sep c : Char) (cs : List Char) :
    splitOnChar sep (c :: cs) =
      if c = sep then [] :: splitOnChar sep cs
      else
        match splitOnChar sep cs with
        | [] => [[c]]
        | a :: as => (c :: a) :: as := rfl

theorem splitOnChar_ne_nil (sep : Char) (cs : List Char) :
    splitOnChar sep cs ≠ [] := by
  induction cs with
  | nil => simp [splitOnChar]
  | cons c cs ih =>
    rw [splitOnChar_cons]
    by_cases h : c = sep
    · simp [h]
    · rw [if_neg h]
      rcases hs : splitOnChar sep cs with _ | ⟨a, as⟩
      · simp
      · simp

theorem splitOnChar_no_sep (sep : Char) (x : List Char) (h : sep ∉ x) :
    splitOnChar sep x = [x] := by
  induction x with
  | nil => rfl
  | cons c cs ih =>
    have hc : ¬c = sep := fun he => h (he ▸ List.mem_cons_self c cs)
    have hcs : sep ∉ cs := fun hm => h (List.mem_cons_of_mem c hm)
    rw [splitOnChar_cons, if_neg hc, ih hcs]

theorem splitOnChar_append (sep : Char) (x rest : List Char) (h : sep ∉ x) :
    splitOnChar sep (x ++ sep :: rest) = x :: splitOnChar sep rest := by
  induction x with
  | nil =>
    rw [List.nil_append, splitOnChar_cons, if_pos rfl]
  | cons c cs ih =>
    have hc : ¬c = sep := fun he => h (he ▸ List.mem_cons_self c cs)
    have hcs : sep ∉ cs := fun hm => h (List.mem_cons_of_mem c hm)
    rw [List.cons_append, splitOnChar_cons, if_neg hc, ih hcs]

theorem splitOnChar_joinWith (sep : Char) (xss : List (List Char))
    (hne : xss ≠ []) (h : ∀ xs ∈ xss, sep ∉ xs) :
    splitOnChar sep (joinWith sep xss) = xss := by
  induction xss with
  | nil => exact absurd rfl hne
  | cons x xss ih =>
    rcases xss with _ | ⟨y, t⟩
    · exact splitOnChar_no_sep sep x (h x (List.mem_cons_self _ _))
    · have hx : sep ∉ x := h x (List.mem_cons_self _ _)
      have hrest : ∀ xs ∈ y :: t, sep ∉ xs := fun xs hm => h xs (List.mem_cons_of_mem _ hm)
      have hjw : joinWith sep (x :: y :: t) = x ++ sep :: joinWith sep (y :: t) := rfl
      rw [hjw, splitOnChar_append sep x _ hx, ih (by simp) hrest]

theorem joinWith_append_nil (sep : Char) (xss : List (List Char)) (hne : xss ≠ []) :
    joinWith sep (xss ++ [[]]) = joinWith sep xss ++ [sep] := by
  induction xss with
  | nil => exact absurd rfl hne
  | cons x xss ih =>
    rcases xss with _ | ⟨y, t⟩
    · rfl
    · have h1 : joinWith sep ((x :: y :: t) ++ [[]]) =
          x ++ sep :: joinWith sep ((y :: t) ++ [[]]) := rfl
      rw [h1, ih (by simp)]
      simp [joinWith]

theorem joinWith_cons_ne_nil (sep : Char) (x : List Char) (xss : List (List Char))
    (hx : x ≠ []) : joinWith sep (x :: xss) ≠ [] := by
  rcases xss with _ | ⟨y, t⟩
  · simpa [joinWith]
  · have h1 : joinWith sep (x :: y :: t) = x ++ sep :: joinWith sep (y :: t) := rfl
    rw [h1]
    simp

theorem not_mem_joinWith (sep c : Char) (xss : List (List Char))
    (hcs : c ≠ sep) (h : ∀ xs ∈ xss, c ∉ xs) : c ∉ joinWith sep xss := by
  induction xss with
  | nil => simp [joinWith]
  | cons x xss ih =>
    rcases xss with _ | ⟨y, t⟩
    · simpa [joinWith] using h x (List.mem_cons_self _ _)
    · have h1 : joinWith sep (x :: y :: t) = x ++ sep :: joinWith sep (y :: t) := rfl
      rw [h1]
      intro hm
      rcases List.mem_append.1 hm with hm | hm
      · exact h x (List.mem_cons_self _ _) hm
      · rcases List.mem_cons.1 hm with rfl | hm
        · exact hcs rfl
        · exact ih (fun xs hx => h xs (List.mem_cons_of_mem _ hx)) hm

theorem charDigit_digitChar : ∀ d, d < 10 → charDigit (Nat.digitChar d) = some d := by
  decide

theorem digitChar_not_sep : ∀ d, d < 10 →
    Nat.digitChar d ≠ ',' ∧ Nat.digitChar d ≠ '\n' := by
  decide

theorem decodeDigits_map_digitChar (l : List Nat) (h : ∀ d ∈ l, d < 10) :
    decodeDigits (l.map Nat.digitChar) = some l := by
  induction l with
  | nil => rfl
  | cons d ds ih =>
    have hd : d < 10 := h d (List.mem_cons_self _ _)
    have hds : ∀ x ∈ ds, x < 10 := fun x hx => h x (List.mem_cons_of_mem _ hx)
    show decodeDigits (Nat.digitChar d :: ds.map Nat.digitChar) = some (d :: ds)
    unfold decodeDigits
    rw [charDigit_digitChar d hd, ih hds]

theorem natDecimal_ne_nil (n : Nat) : natDecimal n ≠ [] := by
  unfold natDecimal
  by_cases h : n = 0
  · simp [h]
  · rw [if_neg h]
    simp [Nat.digits_ne_nil_iff_ne_zero.2 h]

theorem mem_natDecimal_digit (n : Nat) (c : Char) (h : c ∈ natDecimal n) :
    ∃ d, d < 10 ∧ c = Nat.digitChar d := by
  unfold natDecimal at h
  by_cases h0 : n = 0
  · rw [if_pos h0] at h
    simp at h
    exact ⟨0, by omega, by rw [h]; rfl⟩
  · rw [if_neg h0] at h
    rw [List.mem_reverse] at h
    obtain ⟨d, hd, rfl⟩ := List.mem_map.1 h
    exact ⟨d, Nat.digits_lt_base (by norm_num) hd, rfl⟩

theorem not_sep_mem_natDecimal (n : Nat) (c : Char) (h : c ∈ natDecimal n) :
    c ≠ ',' ∧ c ≠ '\n' := by
  obtain ⟨d, hd, rfl⟩ := mem_natDecimal_digit n c h
  exact digitChar_not_sep d hd

/-- Decoding the decimal rendering recovers the number. -/
theorem fromDecimal_natDecimal (n : Nat) : fromDecimal (natDecimal n) = some n := by
  by_cases h0 : n = 0
  · subst h0
    decide
  · have hd : natDecimal n = ((Nat.digits 10 n).reverse).map Nat.digitChar := by
      unfold natDecimal
      rw [if_neg h0, List.map_reverse]
    have hlt : ∀ d ∈ (Nat.digits 10 n).reverse, d < 10 := fun d hm =>
      Nat.digits_lt_base (by norm_num) (List.mem_reverse.1 hm)
    unfold fromDecimal
    rw [if_neg (natDecimal_ne_nil n), hd,
      decodeDigits_map_digitChar _ hlt]
    simp [Nat.ofDigits_digits]

theorem not_newline_mem_cellChars (c : Cell) (x : Char) (h : x ∈ cellChars c) :
    x ≠ '\n' := by
  rcases c with _ | q
  · cases h
  · unfold cellChars at h
    rcases List.mem_append.1 h with h1 | h1
    · rcases List.mem_append.1 h1 with h2 | h2
      · by_cases hq : q.num < 0
        · rw [if_pos hq] at h2
          rcases List.mem_singleton.1 h2 with rfl
          decide
        · rw [if_neg hq] at h2
          cases h2
      · exact (not_sep_mem_natDecimal _ _ h2).2
    · rcases List.mem_cons.1 h1 with rfl | h2
      · decide
      · exact (not_sep_mem_natDecimal _ _ h2).2

theorem rowLine_ne_nil (r : TableRow) : rowLine r ≠ [] :=
  joinWith_cons_ne_nil ',' _ _ (natDecimal_ne_nil _)

theorem headerLine_ne_nil (t : RawPriceTable) : headerLine t ≠ [] :=
  joinWith_cons_ne_nil ',' _ _ (by decide)

theorem not_newline_mem_rowLine (r : TableRow) : '\n' ∉ rowLine r := by
  refine not_mem_joinWith ',' '\n' _ (by decide) ?_
  intro xs hxs
  rcases List.mem_cons.1 hxs with rfl | hxs
  · intro hm
    exact (not_sep_mem_natDecimal _ _ hm).2 rfl
  · obtain ⟨cell, _, rfl⟩ := List.mem_map.1 hxs
    intro hm
    exact not_newline_mem_cellChars cell _ hm rfl

theorem not_newline_mem_headerLine (t : RawPriceTable)
    (hcols : ∀ c ∈ t.columns, '\n' ∉ c.data) : '\n' ∉ headerLine t := by
  refine not_mem_joinWith ',' '\n' _ (by decide) ?_
  intro xs hxs
  rcases List.mem_cons.1 hxs with rfl | hxs
  · decide
  · obtain ⟨c, hc, rfl⟩ := List.mem_map.1 hxs
    exact hcols c hc

/-- The first comma-field of a data line is the rendered date. -/
theorem splitOnChar_rowLine_head (r : TableRow) :
    ∃ fields, splitOnChar ',' (rowLine r) = natDecimal r.date :: fields := by
  have hnosep : ',' ∉ natDecimal r.date := fun hm =>
    (not_sep_mem_natDecimal _ _ hm).1 rfl
  unfold rowLine
  rcases hc : r.cells.map cellChars with _ | ⟨y, t'⟩
  · exact ⟨[], splitOnChar_no_sep ',' _ hnosep⟩
  · refine ⟨splitOnChar ',' (joinWith ',' (y :: t')), ?_⟩
    rw [show joinWith ',' (natDecimal r.date :: y :: t') =
        natDecimal r.date ++ ',' :: joinWith ',' (y :: t') from rfl]
    exact splitOnChar_append ',' _ _ hnosep

/-- Parsing the exported CSV gives back exactly one parsed row per table
    row, in order. -/
theorem parseCsv_to_csv_map (t : RawPriceTable)
    (hcols : ∀ c ∈ t.columns, '\n' ∉ c.data) :
    parseCsv (to_csv t) = t.rows.map (fun r =>
      match splitOnChar ',' (rowLine r) with
      | [] => (none, [])
      | d :: fields => (fromDecimal d, fields)) := by
  have hsplit : splitOnChar '\n'
      ((joinWith '\n' (headerLine t :: t.rows.map rowLine)) ++ ['\n'])
      = (headerLine t :: t.rows.map rowLine) ++ [[]] := by
    rw [← joinWith_append_nil '\n' _ (by simp)]
    refine splitOnChar_joinWith '\n' _ (by simp) ?_
    intro xs hxs
    rcases List.mem_append.1 hxs with h | h
    · rcases List.mem_cons.1 h with rfl | h
      · exact not_newline_mem_headerLine t hcols
      · obtain ⟨r, _, rfl⟩ := List.mem_map.1 h
        exact not_newline_mem_rowLine r
    · rcases List.mem_singleton.1 h with rfl
      simp
  have hfilter : ((headerLine t :: t.rows.map rowLine) ++ [[]]).filter (· ≠ []) =
      headerLine t :: t.rows.map rowLine := by
    rw [List.filter_append]
    have h2 : ([([] : List Char)]).filter (fun x => decide (x ≠ [])) = [] := rfl
    rw [h2, List.append_nil]
    rw [List.filter_eq_self]
    intro a ha
    rcases List.mem_cons.1 ha with rfl | ha
    · simpa using headerLine_ne_nil t
    · obtain ⟨r, _, rfl⟩ := List.mem_map.1 ha
      simpa using rowLine_ne_nil r
  unfold parseCsv to_csv
  rw [show (String.mk ((joinWith '\n' (headerLine t :: t.rows.map rowLine)) ++ ['\n'])).data
      = (joinWith '\n' (headerLine t :: t.rows.map rowLine)) ++ ['\n'] from rfl]
  rw [hsplit, hfilter]
  show (List.map rowLine t.rows).map (fun line =>
      match splitOnChar ',' line with
      | [] => ((none : Option Nat), ([] : List (List Char)))
      | d :: fields => (fromDecimal d, fields)) = _
  rw [List.map_map]
  rfl

/-- C7: the CSV export / parse round trip preserves the row count and the
    (ordered) list of dates, hence the date range. -/
theorem C7_csv_roundtrip (t : RawPriceTable)
    (hcols : ∀ c ∈ t.columns, '\n' ∉ c.data) :
    (parseCsv (to_csv t)).length = t.rows.length ∧
    (parseCsv (to_csv t)).map Prod.fst = t.rows.map (fun r => some r.date) := by
  rw [parseCsv_to_csv_map t hcols]
  constructor
  · rw [List.length_map]
  · rw [List.map_map]
    refine List.map_congr_left ?_
    intro r _
    obtain ⟨fields, hf⟩ := splitOnChar_rowLine_head r
    simp only [Function.comp, hf, fromDecimal_natDecimal]

/-- C7 witness at the concrete two-row table. -/
theorem C7_csv_roundtrip_witness :
    (parseCsv (to_csv tblTwoRows)).length = tblTwoRows.rows.length ∧
    (parseCsv (to_csv tblTwoRows)).map Prod.fst =
      tblTwoRows.rows.map (fun r => some r.date) :=
  C7_csv_roundtrip tblTwoRows (by decide)

end StockForecast
